import Mathlib

/-!
Shallow embedding of the category/tag persistence core of
`logic_plugin_manager` (files `tags/musicapps.py`, `tags/category.py`,
`tags/tagset.py`).

Modelling conventions:
* a plist dictionary is an association list `List (String × α)` with the
  usual python `dict` operations (`dictGet`, `dictSet`, `dictPop`);
* every persisted store is represented by the parsed content of its file;
  a mutating method `m` of the python code becomes a function
  `file → Except PyErr Unit × file` returning the outcome of the call and
  the file content afterwards (python raises before `_save_plist`, so on
  an error the returned file is the file at the moment of the raise);
* the in-memory object of a store is re-derived from the file by `load`
  at the start of every operation, so operations are functions of the
  file alone; `Properties.loadFrom` gives the in-memory view where a
  statement needs it;
* python exception classes are collapsed to the constructors of `PyErr`.
-/

/-- Python exception kinds relevant to the embedded code. -/
inductive PyErr where
  | valueError
  | keyError
  | indexError
  | attributeError
  | categoryValidationError
  | categoryExistsError
deriving DecidableEq, Repr

/-- `d.get(k)` on a python dict modelled as an association list. -/
def dictGet {α : Type} (k : String) : List (String × α) → Option α
  | [] => none
  | (a, b) :: rest => if a = k then some b else dictGet k rest

/-- `d[k] = v` on a python dict: update in place if the key is present,
append the new pair otherwise (insertion order semantics). -/
def dictSet {α : Type} (k : String) (v : α) : List (String × α) → List (String × α)
  | [] => [(k, v)]
  | (a, b) :: rest => if a = k then (k, v) :: rest else (a, b) :: dictSet k v rest

/-- `d.pop(k, None)` / `del d[k]` on a python dict with unique keys:
drop the first pair with key `k`, keep everything else. -/
def dictPop {α : Type} (k : String) : List (String × α) → List (String × α)
  | [] => []
  | (a, b) :: rest => if a = k then rest else (a, b) :: dictPop k rest

/-- `l.remove(x)` after a membership check: drop the first occurrence. -/
def removeFirst (x : String) : List String → List String
  | [] => []
  | a :: rest => if a = x then rest else a :: removeFirst x rest

/-- `l.insert(i, x)` for a non-negative python index: insert at position
`i`, clamped to the end of the list. -/
def pyInsert (x : String) : Nat → List String → List String
  | 0, l => x :: l
  | _ + 1, [] => [x]
  | n + 1, a :: l => a :: pyInsert x n l

/-- `l.index(x)`: index of the first occurrence, `ValueError` if absent. -/
def listIndex (x : String) : List String → Except PyErr Nat
  | [] => .error .valueError
  | a :: rest => if a = x then .ok 0 else (listIndex x rest).map (· + 1)

/-! ## Properties store (`MusicApps.properties`, class `Properties`) -/

/-- Parsed content of the `MusicApps.properties` plist.  `sorting` is the
optional `"sorting"` key (an ordered list of category paths), `user_sorted`
the optional `"user_sorted"` key (stored as a string marker). -/
structure PropertiesRaw where
  sorting : Option (List String)
  user_sorted : Option String
deriving DecidableEq, Repr

/-- The `sorting` attribute derived by `Properties.load`:
`self.__raw_data.get("sorting", [])`. -/
def sortingOf (f : PropertiesRaw) : List String :=
  f.sorting.getD []

/-- In-memory view of a `Properties` object right after `load()`. -/
structure PropertiesMem where
  sorting : List String
  user_sorted : Bool
deriving DecidableEq, Repr

/-- `Properties.load`: derive `sorting` (default `[]`) and `user_sorted`
(`bool(...)` of the raw value, default false) from the file. -/
def Properties.loadFrom (f : PropertiesRaw) : PropertiesMem :=
  { sorting := sortingOf f
    user_sorted := match f.user_sorted with
      | some s => s ≠ ""
      | none => false }

/-- `Properties.introduce_category`: reload; no-op if `name` is already in
`sorting`; else append to the raw `"sorting"` list (`KeyError` if the key
is absent), persist, reload. -/
def Properties.introduce_category (f : PropertiesRaw) (name : String) :
    Except PyErr Unit × PropertiesRaw :=
  if name ∈ sortingOf f then (.ok (), f)
  else
    match f.sorting with
    | none => (.error .keyError, f)
    | some l => (.ok (), { f with sorting := some (l ++ [name]) })

/-- `Properties.remove_category`: reload; `self.__raw_data["sorting"].remove(name)`
(`KeyError` if the key is absent, `ValueError` if `name` is not listed);
persist; reload. -/
def Properties.remove_category (f : PropertiesRaw) (name : String) :
    Except PyErr Unit × PropertiesRaw :=
  match f.sorting with
  | none => (.error .keyError, f)
  | some l =>
    if name ∈ l then (.ok (), { f with sorting := some (removeFirst name l) })
    else (.error .valueError, f)

/-- `Properties.move_before`: reload; copy `sorting`; check both names;
remove `category`; reinsert at the post-removal index of `target`. -/
def Properties.move_before (f : PropertiesRaw) (category target : String) :
    Except PyErr Unit × PropertiesRaw :=
  let sorting := sortingOf f
  if category ∈ sorting then
    if target ∈ sorting then
      let sorting1 := removeFirst category sorting
      match listIndex target sorting1 with
      | .ok target_idx =>
          (.ok (), { f with sorting := some (pyInsert category target_idx sorting1) })
      | .error e => (.error e, f)
    else (.error .valueError, f)
  else (.error .valueError, f)

/-- `Properties.move_after`: like `move_before` but reinsert at the
post-removal index of `target` plus one. -/
def Properties.move_after (f : PropertiesRaw) (category target : String) :
    Except PyErr Unit × PropertiesRaw :=
  let sorting := sortingOf f
  if category ∈ sorting then
    if target ∈ sorting then
      let sorting1 := removeFirst category sorting
      match listIndex target sorting1 with
      | .ok target_idx =>
          (.ok (), { f with sorting := some (pyInsert category (target_idx + 1) sorting1) })
      | .error e => (.error e, f)
    else (.error .valueError, f)
  else (.error .valueError, f)

/-- `Properties.move_to_index`: reload; copy `sorting`; check membership;
wrap a negative index by `len + index`; clamp into `[0, len - 1]`;
remove then reinsert at the clamped index; persist; reload. -/
def Properties.move_to_index (f : PropertiesRaw) (category : String) (index : Int) :
    Except PyErr Unit × PropertiesRaw :=
  let sorting := sortingOf f
  if category ∈ sorting then
    let index1 : Int := if index < 0 then sorting.length + index else index
    let index2 : Nat := (max 0 (min ((sorting.length : Int) - 1) index1)).toNat
    (.ok (), { f with sorting := some (pyInsert category index2 (removeFirst category sorting)) })
  else (.error .valueError, f)

/-- `Properties.set_order`: reload; compare the two sets of names; raise a
mismatch `ValueError` if they differ; else replace `sorting` wholesale,
persist, reload. -/
def Properties.set_order (f : PropertiesRaw) (categories : List String) :
    Except PyErr Unit × PropertiesRaw :=
  let current := sortingOf f
  if categories.all (fun x => decide (x ∈ current)) && current.all (fun x => decide (x ∈ categories)) then
    (.ok (), { f with sorting := some categories })
  else (.error .valueError, f)

/-- `Properties.get_index`: `self.sorting.index(category)` on the in-memory
sorting (no reload). -/
def Properties.get_index (f : PropertiesRaw) (category : String) : Except PyErr Nat :=
  listIndex category (sortingOf f)

/-- `Properties.get_neighbors`: previous/next path around `category` in the
in-memory `sorting`, `None` at either boundary.  The indexed accesses are
guarded in range, so `getD` defaults are unreachable. -/
def Properties.get_neighbors (f : PropertiesRaw) (category : String) :
    Except PyErr (Option String × Option String) :=
  match Properties.get_index f category with
  | .error e => .error e
  | .ok idx =>
    let s := sortingOf f
    let prev_cat := if idx > 0 then some (s.getD (idx - 1) "") else none
    let next_cat := if idx < s.length - 1 then some (s.getD (idx + 1) "") else none
    .ok (prev_cat, next_cat)

/-! ## Tagpool store (`MusicApps.tagpool`, class `Tagpool`) -/

/-- Parsed content of the `MusicApps.tagpool` plist: a dict from category
path to cached plugin count. -/
abbrev TagpoolDict : Type := List (String × Nat)

/-- `Tagpool.write_category`: reload; `categories[name] = plugin_count`;
persist; reload. -/
def Tagpool.write_category (d : TagpoolDict) (name : String) (plugin_count : Nat) :
    Except PyErr Unit × TagpoolDict :=
  (.ok (), dictSet name plugin_count d)

/-- `Tagpool.introduce_category`: reload; no-op if the key is present; else
`write_category(name)` with the default count 0. -/
def Tagpool.introduce_category (d : TagpoolDict) (name : String) :
    Except PyErr Unit × TagpoolDict :=
  if (dictGet name d).isSome then (.ok (), d)
  else Tagpool.write_category d name 0

/-- `Tagpool.remove_category`: reload; `categories.pop(name, None)` (no
error when absent); persist; reload. -/
def Tagpool.remove_category (d : TagpoolDict) (name : String) :
    Except PyErr Unit × TagpoolDict :=
  (.ok (), dictPop name d)

/-! ## MusicApps aggregate -/

/-- The two files a `MusicApps` instance is rooted at. -/
structure MAFiles where
  tagpool : TagpoolDict
  props : PropertiesRaw
deriving DecidableEq, Repr

/-- In-memory state of a `MusicApps` object: `lazy=True` leaves the
`tagpool`/`properties` attributes unset (touching them raises
`AttributeError`); otherwise both stores are loaded. -/
inductive MAState where
  | unloaded
  | loaded (tagpool : TagpoolDict) (props : PropertiesRaw)
deriving DecidableEq, Repr

/-- `MusicApps.load`: construct both stores non-lazily from the files. -/
def MusicApps.loadState (files : MAFiles) : MAState :=
  .loaded files.tagpool files.props

/-- `MusicApps.introduce_category`: introduce into the tagpool, then into
the properties store; not transactional — a failure in the second step
leaves the first step's write in place. -/
def MusicApps.introduce_category (files : MAFiles) (name : String) :
    Except PyErr Unit × MAFiles :=
  match Tagpool.introduce_category files.tagpool name with
  | (.error e, tp) => (.error e, { files with tagpool := tp })
  | (.ok (), tp) =>
    match Properties.introduce_category files.props name with
    | (r, pr) => (r, { tagpool := tp, props := pr })

/-! ## Category (`tags/category.py`) -/

/-- Runtime `Category` object.  `name` is `Option String` because the code
may pass python `None` as a name (e.g. from `get_neighbors`). -/
structure Category where
  name : Option String
  is_root : Bool
  plugin_amount : Nat
  lazy : Bool
deriving DecidableEq, Repr

/-- `Category.load`: validate against the in-memory `MusicApps`.  The
tagpool membership test runs first for every name (including the root and
`None`); the root then skips the `sorting` test; non-root names must also
appear in `sorting`.  On a lazy (unloaded) `MusicApps`, touching
`musicapps.tagpool` raises `AttributeError`. -/
def Category.load (name : Option String) (ma : MAState) : Except PyErr Category :=
  match ma with
  | .unloaded => .error .attributeError
  | .loaded tp pr =>
    match name with
    | none => .error .categoryValidationError
    | some s =>
      match dictGet s tp with
      | none => .error .categoryValidationError
      | some amount =>
        if s = "" then .ok { name := some s, is_root := true, plugin_amount := amount, lazy := false }
        else if s ∈ sortingOf pr then
          .ok { name := some s, is_root := false, plugin_amount := amount, lazy := false }
        else .error .categoryValidationError

/-- `Category.__init__`: set the default fields; validate via `load` unless
`lazy`. -/
def Category.init (name : Option String) (ma : MAState) (lazy : Bool) :
    Except PyErr Category :=
  if lazy then .ok { name := name, is_root := false, plugin_amount := 0, lazy := true }
  else Category.load name ma

/-- `Category.introduce`: probe by constructing `Category(name)`; a
successful construction raises `CategoryExistsError`; only
`CategoryValidationError` is caught as "doesn't exist"; any other probe
exception propagates.  On the expected path the category is introduced in
both stores (each store op reloads from its file and ends loaded from the
just-written file) and a fresh non-lazy `Category` is returned. -/
def Category.introduce (name : String) (files : MAFiles) (ma : MAState) (lazy : Bool) :
    Except PyErr Category × MAFiles × MAState :=
  match Category.init (some name) ma lazy with
  | .ok _ => (.error .categoryExistsError, files, ma)
  | .error .categoryValidationError =>
    match ma with
    | .unloaded => (.error .attributeError, files, ma)
    | .loaded _ _ =>
      match MusicApps.introduce_category files name with
      | (r, files1) =>
        let ma1 := MusicApps.loadState files1
        match r with
        | .error e => (.error e, files1, ma1)
        | .ok () => (Category.init (some name) ma1 false, files1, ma1)
  | .error e => (.error e, files, ma)

/-- `Category.neighbors`: `(None, None)` for the root; otherwise ask
`Properties.get_neighbors` and build a non-lazy `Category` for each side
(left one first).  The guard `neighbors is None or len(neighbors) != 2`
of the python code can never fire here because `get_neighbors` always
returns a well-formed pair.  A `None` side is passed as the `name` of the
constructed `Category`. -/
def Category.neighbors (c : Category) (ma : MAState) :
    Except PyErr (Option Category × Option Category) :=
  if c.is_root then .ok (none, none)
  else
    match ma with
    | .unloaded => .error .attributeError
    | .loaded _ pr =>
      match
        (match c.name with
         | none => .error .valueError
         | some s => Properties.get_neighbors pr s : Except PyErr (Option String × Option String))
      with
      | .error e => .error e
      | .ok (prev_cat, next_cat) =>
        match Category.init prev_cat ma false with
        | .error e => .error e
        | .ok c1 =>
          match Category.init next_cat ma false with
          | .error e => .error e
          | .ok c2 => .ok (some c1, some c2)

/-! ## Tagset (`tags/tagset.py`) -/

/-- Parsed content of a `.tagset` plist: optional `nickname`, `shortname`
and `tags` keys; `tags` maps category path to source-tag string. -/
structure TagsetRaw where
  nickname : Option String
  shortname : Option String
  tags : Option (List (String × String))
deriving DecidableEq, Repr

/-- In-memory view of a `Tagset` right after `load()`.  The python line
`self.tags = self.__raw_data.get("tags") or {}` makes `tags` an alias of
the raw `"tags"` dict exactly when that stored value is truthy (present
and non-empty); otherwise `tags` is a fresh empty dict detached from
`__raw_data`, recorded here by `aliased = false`. -/
structure TagsetMem where
  raw : TagsetRaw
  tags : List (String × String)
  aliased : Bool
deriving DecidableEq, Repr

/-- `Tagset.load` on a parsed file. -/
def Tagset.loadFrom (f : TagsetRaw) : TagsetMem :=
  match f.tags with
  | some t => if t = [] then { raw := f, tags := [], aliased := false } else { raw := f, tags := t, aliased := true }
  | none => { raw := f, tags := [], aliased := false }

/-- `Tagset.add_tag`: reload; `self.tags[tag] = value`; write
`__raw_data`; reload.  The insertion reaches the written file only when
`tags` aliases the raw dict. -/
def Tagset.add_tag (f : TagsetRaw) (tag value : String) :
    Except PyErr Unit × TagsetRaw :=
  let m := Tagset.loadFrom f
  let tags1 := dictSet tag value m.tags
  if m.aliased then (.ok (), { m.raw with tags := some tags1 })
  else (.ok (), m.raw)

/-- `Tagset.remove_tag`: reload; `del self.tags[tag]` (`KeyError` when the
key is absent); write `__raw_data`; reload. -/
def Tagset.remove_tag (f : TagsetRaw) (tag : String) :
    Except PyErr Unit × TagsetRaw :=
  let m := Tagset.loadFrom f
  if (dictGet tag m.tags).isSome then
    let tags1 := dictPop tag m.tags
    if m.aliased then (.ok (), { m.raw with tags := some tags1 })
    else (.ok (), m.raw)
  else (.error .keyError, f)

/-! ## Helper lemmas about the dict and list primitives -/

theorem dictGet_dictSet_self {α : Type} (k : String) (v : α) (d : List (String × α)) :
    dictGet k (dictSet k v d) = some v := by
  induction d with
  | nil => simp [dictGet, dictSet]
  | cons p rest ih =>
    by_cases h : p.1 = k
    · simp [dictGet, dictSet, h]
    · simp [dictGet, dictSet, h, ih]

theorem dictGet_eq_none_of_not_mem {α : Type} {k : String} {d : List (String × α)}
    (h : k ∉ d.map Prod.fst) : dictGet k d = none := by
  induction d with
  | nil => rfl
  | cons p rest ih =>
    have hp : p.1 ≠ k := by
      intro hc
      exact h (by simp [hc])
    simp only [dictGet, hp, if_false]
    exact ih (fun hc => h (by simp [hc]))

theorem dictGet_dictPop_self {α : Type} (k : String) (d : List (String × α))
    (hu : (d.map Prod.fst).Nodup) : dictGet k (dictPop k d) = none := by
  induction d with
  | nil => rfl
  | cons p rest ih =>
    simp only [List.map_cons, List.nodup_cons] at hu
    by_cases h : p.1 = k
    · simp only [dictPop, h, if_true]
      exact dictGet_eq_none_of_not_mem (h ▸ hu.1)
    · simp only [dictPop, h, if_false, dictGet]
      exact ih hu.2

theorem dictGet_dictPop_ne {α : Type} (k k' : String) (d : List (String × α))
    (h : k' ≠ k) : dictGet k' (dictPop k d) = dictGet k' d := by
  induction d with
  | nil => rfl
  | cons p rest ih =>
    by_cases hp : p.1 = k
    · have hp' : p.1 ≠ k' := by
        rw [hp]
        exact fun hc => h hc.symm
      simp only [dictPop, hp, if_true, dictGet]
      rw [if_neg (fun hc => h hc.symm)]
    · simp [dictPop, hp, dictGet, ih]

theorem mem_removeFirst_of_ne {x y : String} {l : List String}
    (hne : y ≠ x) (hmem : y ∈ l) : y ∈ removeFirst x l := by
  induction l with
  | nil => simp at hmem
  | cons a rest ih =>
    by_cases h : a = x
    · subst h
      rcases List.mem_cons.mp hmem with h1 | h1
      · exact absurd h1 hne
      · simpa [removeFirst] using h1
    · rcases List.mem_cons.mp hmem with h1 | h1
      · simp [removeFirst, h, h1]
      · simp [removeFirst, h]
        right
        exact ih h1

theorem not_mem_removeFirst_of_count_one {x : String} {l : List String}
    (h : l.count x = 1) : x ∉ removeFirst x l := by
  induction l with
  | nil => simp [removeFirst]
  | cons a rest ih =>
    by_cases ha : a = x
    · subst ha
      rw [List.count_cons_self] at h
      have : rest.count a = 0 := by omega
      simpa [removeFirst] using List.count_eq_zero.mp this
    · rw [List.count_cons_of_ne (fun hc => ha hc.symm)] at h
      simp [removeFirst, ha]
      exact ⟨fun hc => ha hc.symm, ih h⟩

theorem length_removeFirst_add_one {x : String} {l : List String}
    (h : x ∈ l) : (removeFirst x l).length + 1 = l.length := by
  induction l with
  | nil => simp at h
  | cons a rest ih =>
    by_cases ha : a = x
    · simp [removeFirst, ha]
    · rcases List.mem_cons.mp h with h1 | h1
      · exact absurd h1.symm ha
      · simp [removeFirst, ha, ← ih h1]

theorem listIndex_pyInsert {x : String} {l : List String} {j : Nat}
    (hx : x ∉ l) (hj : j ≤ l.length) :
    listIndex x (pyInsert x j l) = .ok j := by
  induction j generalizing l with
  | zero => simp [pyInsert, listIndex]
  | succ n ih =>
    cases l with
    | nil => simp at hj
    | cons a rest =>
      have ha : a ≠ x := by
        intro hc
        exact hx (by simp [hc])
      have hx' : x ∉ rest := fun hc => hx (by simp [hc])
      simp only [pyInsert, listIndex, ha, if_false]
      rw [ih hx' (by simpa using hj)]
      rfl

theorem count_pos_of_count_eq_one {x : String} {l : List String}
    (h : l.count x = 1) : x ∈ l := by
  by_contra hc
  rw [List.count_eq_zero.mpr hc] at h
  omega

theorem dictPop_eq_of_get_none {α : Type} {k : String} {d : List (String × α)}
    (h : dictGet k d = none) : dictPop k d = d := by
  induction d with
  | nil => rfl
  | cons p rest ih =>
    by_cases hp : p.1 = k
    · simp [dictGet, hp] at h
    · simp only [dictGet, hp, if_false] at h
      simp [dictPop, hp, ih h]

/-! ## Claims -/

/-- C1, counterexample: with a tagpool `{"X": 2}` and sorting `["X"]` —
the root path `""` present in neither store — constructing a `Category`
for `""` raises `CategoryValidationError` instead of always succeeding:
`Category.load` tests tagpool membership before its root special case. -/
theorem root_category_validation_counterexample :
    Category.init (some "") (.loaded [("X", 2)] ⟨some ["X"], none⟩) false =
      .error .categoryValidationError := rfl

/-- C1, amended: a `Category` for the root path `""` validates
successfully if and only if `""` is a key of `Tagpool.categories`; the
`Properties` store is irrelevant for the root (the sorting check is
skipped), and on success `is_root` is true with `plugin_amount` the
stored count. -/
theorem root_category_valid_iff_tagpool_entry (tp : TagpoolDict) (pr : PropertiesRaw) :
    (∀ amount : Nat, dictGet "" tp = some amount →
      Category.init (some "") (.loaded tp pr) false =
        .ok { name := some "", is_root := true, plugin_amount := amount, lazy := false }) ∧
    (dictGet "" tp = none →
      Category.init (some "") (.loaded tp pr) false = .error .categoryValidationError) := by
  constructor
  · intro amount h
    simp [Category.init, Category.load, h]
  · intro h
    simp [Category.init, Category.load, h]

/-- Witness for the C1 amended theorem at a tagpool `{"": 5}` and a
properties file without even a `sorting` key. -/
theorem root_category_valid_iff_tagpool_entry_witness :
    dictGet "" [("", 5)] = some 5 ∧
    Category.init (some "") (.loaded [("", 5)] ⟨none, none⟩) false =
      .ok { name := some "", is_root := true, plugin_amount := 5, lazy := false } :=
  ⟨rfl, (root_category_valid_iff_tagpool_entry [("", 5)] ⟨none, none⟩).1 5 rfl⟩

/-- C3, code bug: on a tagset file with no `tags` entry, `add_tag("x", "user")`
writes the file back unchanged — the in-memory `tags` dict does not alias
`__raw_data["tags"]` when the stored mapping is empty or absent, so the
insertion is lost — and the subsequent `remove_tag("x")` raises `KeyError`
instead of restoring the original mapping. -/
theorem tagset_add_remove_roundtrip_failure :
    Tagset.add_tag ⟨none, none, none⟩ "x" "user" = (.ok (), ⟨none, none, none⟩) ∧
    Tagset.remove_tag ⟨none, none, none⟩ "x" = (.error .keyError, ⟨none, none, none⟩) :=
  ⟨rfl, rfl⟩

/-- C7, counterexample: with a lazy (unloaded) `MusicApps`, the existence
probe of `Category.introduce` raises `AttributeError`; that non-validation
exception is not treated as "doesn't exist": it propagates, the stores are
left untouched, and `"X"` is not introduced. -/
theorem introduce_nonvalidation_error_counterexample :
    Category.introduce "X" ⟨[("A", 1)], ⟨some ["A"], none⟩⟩ .unloaded false =
      (.error .attributeError, ⟨[("A", 1)], ⟨some ["A"], none⟩⟩, .unloaded) ∧
    dictGet "X"
      (Category.introduce "X" ⟨[("A", 1)], ⟨some ["A"], none⟩⟩ .unloaded false).2.1.tagpool
      = none :=
  ⟨rfl, rfl⟩

/-- C7, amended: only `CategoryValidationError` is caught by the existence
probe of `Category.introduce`; any other exception raised while
constructing the probe `Category` propagates out unchanged and
introduction does not proceed (both stores and the in-memory `MusicApps`
are unchanged). -/
theorem introduce_propagates_nonvalidation_probe_error
    (name : String) (files : MAFiles) (ma : MAState) (lazy : Bool) (e : PyErr)
    (h : Category.init (some name) ma lazy = .error e)
    (hne : e ≠ .categoryValidationError) :
    Category.introduce name files ma lazy = (.error e, files, ma) := by
  cases e
  case categoryValidationError => exact absurd rfl hne
  all_goals simp [Category.introduce, h]

/-- Witness for the C7 amended theorem: the `AttributeError` probe outcome
on an unloaded `MusicApps` propagates. -/
theorem introduce_propagates_nonvalidation_probe_error_witness :
    Category.init (some "X") .unloaded false = .error .attributeError ∧
    (PyErr.attributeError ≠ PyErr.categoryValidationError) ∧
    Category.introduce "X" ⟨[("B", 3)], ⟨some ["B"], none⟩⟩ .unloaded false =
      (.error .attributeError, ⟨[("B", 3)], ⟨some ["B"], none⟩⟩, .unloaded) :=
  ⟨rfl, by decide,
    introduce_propagates_nonvalidation_probe_error "X" ⟨[("B", 3)], ⟨some ["B"], none⟩⟩
      .unloaded false .attributeError rfl (by decide)⟩

/-- C9: `Category.introduce` with `lazy=True` always raises
`CategoryExistsError`, for every name and every store/`MusicApps` state —
the lazy probe construction skips validation and always succeeds, so the
"already exists" branch is always taken and nothing is introduced. -/
theorem introduce_lazy_always_exists_error
    (name : String) (files : MAFiles) (ma : MAState) :
    Category.introduce name files ma true = (.error .categoryExistsError, files, ma) := rfl

/-- C8: `Tagpool.remove_category` never raises — when the key is absent it
persists the dict unchanged, when present it removes exactly that key —
whereas `Properties.remove_category` raises a `ValueError` ("not found")
and leaves the file unchanged when the name is absent from `sorting`, and
removes the name and persists when present. -/
theorem remove_category_error_asymmetry :
    (∀ (d : TagpoolDict) (name : String), (Tagpool.remove_category d name).1 = .ok ()) ∧
    (∀ (d : TagpoolDict) (name : String), dictGet name d = none →
      (Tagpool.remove_category d name).2 = d) ∧
    (∀ (d : TagpoolDict) (name : String), (d.map Prod.fst).Nodup →
      dictGet name (Tagpool.remove_category d name).2 = none) ∧
    (∀ (d : TagpoolDict) (name other : String), other ≠ name →
      dictGet other (Tagpool.remove_category d name).2 = dictGet other d) ∧
    (∀ (f : PropertiesRaw) (name : String) (l : List String),
      f.sorting = some l → name ∉ l →
      Properties.remove_category f name = (.error .valueError, f)) ∧
    (∀ (f : PropertiesRaw) (name : String) (l : List String),
      f.sorting = some l → name ∈ l →
      Properties.remove_category f name = (.ok (), { f with sorting := some (removeFirst name l) })) := by
  refine ⟨fun d name => rfl, fun d name h => ?_, fun d name hu => ?_,
    fun d name other h => ?_, fun f name l hs h => ?_, fun f name l hs h => ?_⟩
  · simpa [Tagpool.remove_category] using dictPop_eq_of_get_none h
  · simpa [Tagpool.remove_category] using dictGet_dictPop_self name d hu
  · simpa [Tagpool.remove_category] using dictGet_dictPop_ne name other d h
  · simp [Properties.remove_category, hs, h]
  · simp [Properties.remove_category, hs, h]

/-- Witness for C8 at concrete stores: absent key in the tagpool is a
no-op, present key is removed; absent name in `sorting` is a `ValueError`
with the file unchanged, present name is removed. -/
theorem remove_category_error_asymmetry_witness :
    (Tagpool.remove_category [("A", 1)] "B").2 = [("A", 1)] ∧
    dictGet "A" (Tagpool.remove_category [("A", 1), ("B", 2)] "A").2 = none ∧
    Properties.remove_category ⟨some ["A"], none⟩ "B" = (.error .valueError, ⟨some ["A"], none⟩) ∧
    Properties.remove_category ⟨some ["A"], none⟩ "A" = (.ok (), ⟨some [], none⟩) :=
  ⟨remove_category_error_asymmetry.2.1 [("A", 1)] "B" rfl,
   remove_category_error_asymmetry.2.2.1 [("A", 1), ("B", 2)] "A" (by decide),
   remove_category_error_asymmetry.2.2.2.2.1 ⟨some ["A"], none⟩ "B" ["A"] rfl (by decide),
   remove_category_error_asymmetry.2.2.2.2.2 ⟨some ["A"], none⟩ "A" ["A"] rfl (by decide)⟩

/-- C2: whenever `MusicApps.introduce_category p` succeeds on a non-root
path `p` absent from both stores, afterwards `p` is a key of
`Tagpool.categories` with count 0, `p` is appended at the end of
`Properties.sorting`, and a `Category` constructed for `p` (against the
freshly loaded `MusicApps`) validates successfully with
`plugin_amount = 0`. -/
theorem introduce_category_creates_valid_category
    (files files1 : MAFiles) (p : String)
    (hroot : p ≠ "")
    (htp : dictGet p files.tagpool = none)
    (hsort : p ∉ sortingOf files.props)
    (hsucc : MusicApps.introduce_category files p = (.ok (), files1)) :
    dictGet p files1.tagpool = some 0 ∧
    files1.props.sorting = some (sortingOf files.props ++ [p]) ∧
    Category.init (some p) (MusicApps.loadState files1) false =
      .ok { name := some p, is_root := false, plugin_amount := 0, lazy := false } := by
  simp only [MusicApps.introduce_category, Tagpool.introduce_category,
    Tagpool.write_category, htp, Option.isSome_none, Bool.false_eq_true, if_false,
    Properties.introduce_category, hsort] at hsucc
  rcases hps : files.props.sorting with _ | l
  · rw [hps] at hsucc
    simp at hsucc
  · rw [hps] at hsucc
    simp only [if_neg hsort] at hsucc
    have h1 : files1 = ⟨dictSet p 0 files.tagpool,
        { files.props with sorting := some (l ++ [p]) }⟩ := by
      cases hsucc
      rfl
    subst h1
    refine ⟨dictGet_dictSet_self p 0 files.tagpool, ?_, ?_⟩
    · simp [sortingOf, hps]
    · simp [Category.init, Category.load, MusicApps.loadState,
        dictGet_dictSet_self, hroot, sortingOf]

/-- Witness for C2: introducing `"B"` into `{"A": 3}` / `sorting ["A"]`
yields `{"A": 3, "B": 0}` and `sorting ["A", "B"]`, and `Category "B"`
validates with plugin amount 0. -/
theorem introduce_category_creates_valid_category_witness :
    ("B" : String) ≠ "" ∧
    dictGet "B" [("A", 3)] = none ∧
    ("B" : String) ∉ sortingOf ⟨some ["A"], some "property"⟩ ∧
    dictGet "B" ([("A", 3), ("B", 0)] : TagpoolDict) = some 0 ∧
    (⟨[("A", 3), ("B", 0)], ⟨some ["A", "B"], some "property"⟩⟩ : MAFiles).props.sorting
      = some (sortingOf ⟨some ["A"], some "property"⟩ ++ ["B"]) ∧
    Category.init (some "B")
      (MusicApps.loadState ⟨[("A", 3), ("B", 0)], ⟨some ["A", "B"], some "property"⟩⟩) false =
      .ok { name := some "B", is_root := false, plugin_amount := 0, lazy := false } := by
  refine ⟨by decide, rfl, by decide, ?_⟩
  have := introduce_category_creates_valid_category
    ⟨[("A", 3)], ⟨some ["A"], some "property"⟩⟩
    ⟨[("A", 3), ("B", 0)], ⟨some ["A", "B"], some "property"⟩⟩
    "B" (by decide) rfl (by decide) rfl
  exact this

/-- C4: when `sorting` contains `name` exactly once, for every integer
`i`, `move_to_index(name, i)` succeeds (never raises) and a following
`get_index(name)` returns `max(0, min(len-1, i if i>=0 else len+i))`:
negative indices wrap via `len + i` and out-of-range results are
clamped. -/
theorem move_to_index_get_index_clamp
    (f : PropertiesRaw) (name : String) (i : Int)
    (hcount : (sortingOf f).count name = 1) :
    (Properties.move_to_index f name i).1 = .ok () ∧
    Properties.get_index (Properties.move_to_index f name i).2 name =
      .ok ((max 0 (min (((sortingOf f).length : Int) - 1)
        (if 0 ≤ i then i else ((sortingOf f).length : Int) + i))).toNat) := by
  have hmem : name ∈ sortingOf f := count_pos_of_count_eq_one hcount
  have hnm : name ∉ removeFirst name (sortingOf f) :=
    not_mem_removeFirst_of_count_one hcount
  have hrlen : (removeFirst name (sortingOf f)).length + 1 = (sortingOf f).length :=
    length_removeFirst_add_one hmem
  have hifeq : (if i < 0 then ((sortingOf f).length : Int) + i else i) =
      (if 0 ≤ i then i else ((sortingOf f).length : Int) + i) := by
    by_cases h0 : i < 0
    · rw [if_pos h0, if_neg (by omega)]
    · rw [if_neg h0, if_pos (by omega)]
  simp only [Properties.move_to_index, if_pos hmem]
  refine ⟨trivial, ?_⟩
  have hupd : ∀ (l : List String), sortingOf { f with sorting := some l } = l := fun l => rfl
  simp only [Properties.get_index, hupd]
  rw [listIndex_pyInsert hnm (by omega), hifeq]

/-- Witness for C4 at the spec scenario: `sorting = ["A","B"]`,
`move_to_index("B", -1)` clamps to index `len-1 = 1`, leaving `"B"` at
index 1. -/
theorem move_to_index_get_index_clamp_witness :
    (sortingOf ⟨some ["A", "B"], none⟩).count "B" = 1 ∧
    (Properties.move_to_index ⟨some ["A", "B"], none⟩ "B" (-1)).1 = .ok () ∧
    Properties.get_index (Properties.move_to_index ⟨some ["A", "B"], none⟩ "B" (-1)).2 "B" =
      .ok 1 := by
  have h := move_to_index_get_index_clamp ⟨some ["A", "B"], none⟩ "B" (-1) (by decide)
  exact ⟨by decide, h.1, h.2.trans (congrArg Except.ok (by decide))⟩

/-- C5: with `name` and `target` each occurring exactly once in `sorting`,
`move_before(name, target)` / `move_after(name, target)` first removes
`name` and reinserts it at `target`'s post-removal index `k` / at `k + 1`;
in particular with `sorting = ["A","B","C"]`, `move_after("A","C")` yields
`["B","C","A"]`. -/
theorem move_before_after_post_removal_index
    (f : PropertiesRaw) (name target : String) (k : Nat)
    (hc1 : (sortingOf f).count name = 1)
    (hc2 : (sortingOf f).count target = 1)
    (hne : name ≠ target)
    (hidx : listIndex target (removeFirst name (sortingOf f)) = .ok k) :
    Properties.move_before f name target =
      (.ok (), { f with sorting := some (pyInsert name k (removeFirst name (sortingOf f))) }) ∧
    Properties.move_after f name target =
      (.ok (), { f with sorting := some (pyInsert name (k + 1) (removeFirst name (sortingOf f))) }) ∧
    Properties.move_after ⟨some ["A", "B", "C"], none⟩ "A" "C" =
      (.ok (), ⟨some ["B", "C", "A"], none⟩) := by
  have hm1 : name ∈ sortingOf f := count_pos_of_count_eq_one hc1
  have hm2 : target ∈ sortingOf f := count_pos_of_count_eq_one hc2
  refine ⟨?_, ?_, rfl⟩
  · simp only [Properties.move_before, if_pos hm1, if_pos hm2, hidx]
  · simp only [Properties.move_after, if_pos hm1, if_pos hm2, hidx]

/-- Witness for C5 at the spec scenario `["A","B","C"]`, `name = "A"`,
`target = "C"` (post-removal index of the target is 1). -/
theorem move_before_after_post_removal_index_witness :
    (sortingOf ⟨some ["A", "B", "C"], none⟩).count "A" = 1 ∧
    (sortingOf ⟨some ["A", "B", "C"], none⟩).count "C" = 1 ∧
    ("A" : String) ≠ "C" ∧
    listIndex "C" (removeFirst "A" (sortingOf ⟨some ["A", "B", "C"], none⟩)) = .ok 1 ∧
    Properties.move_after ⟨some ["A", "B", "C"], none⟩ "A" "C" =
      (.ok (), { (⟨some ["A", "B", "C"], none⟩ : PropertiesRaw) with
        sorting := some (pyInsert "A" (1 + 1) (removeFirst "A" (sortingOf ⟨some ["A", "B", "C"], none⟩))) }) :=
  ⟨by decide, by decide, by decide, rfl,
    (move_before_after_post_removal_index ⟨some ["A", "B", "C"], none⟩ "A" "C" 1
      (by decide) (by decide) (by decide) rfl).2.1⟩

/-- C6: `set_order(categories)` raises a mismatch `ValueError` if and only
if the set of given categories differs from the set of the current
`sorting`; on that error the persisted file and the in-memory sorting are
unchanged; when the sets are equal it succeeds and `sorting` afterwards
equals the given sequence element-for-element. -/
theorem set_order_mismatch_iff (f : PropertiesRaw) (categories : List String) :
    ((Properties.set_order f categories).1 = .error .valueError ↔
      ¬ (∀ x, x ∈ categories ↔ x ∈ sortingOf f)) ∧
    (¬ (∀ x, x ∈ categories ↔ x ∈ sortingOf f) →
      Properties.set_order f categories = (.error .valueError, f) ∧
      (Properties.loadFrom (Properties.set_order f categories).2).sorting = sortingOf f) ∧
    ((∀ x, x ∈ categories ↔ x ∈ sortingOf f) →
      Properties.set_order f categories = (.ok (), { f with sorting := some categories }) ∧
      sortingOf (Properties.set_order f categories).2 = categories) := by
  have hb : (categories.all (fun x => decide (x ∈ sortingOf f)) &&
      (sortingOf f).all (fun x => decide (x ∈ categories))) = true ↔
      (∀ x, x ∈ categories ↔ x ∈ sortingOf f) := by
    simp only [Bool.and_eq_true, List.all_eq_true, decide_eq_true_eq]
    constructor
    · intro h x
      exact ⟨fun hx => h.1 x hx, fun hx => h.2 x hx⟩
    · intro h
      exact ⟨fun x hx => (h x).1 hx, fun x hx => (h x).2 hx⟩
  by_cases hset : ∀ x, x ∈ categories ↔ x ∈ sortingOf f
  · have hcond := hb.mpr hset
    refine ⟨?_, fun hc => absurd hset hc, fun _ => ?_⟩
    · simp [Properties.set_order, hcond, hset]
    · constructor
      · simp only [Properties.set_order, hcond, if_true]
      · simp only [Properties.set_order, hcond, if_true]
        rfl
  · have hcond : ¬ ((categories.all (fun x => decide (x ∈ sortingOf f)) &&
        (sortingOf f).all (fun x => decide (x ∈ categories))) = true) := fun hc => hset (hb.mp hc)
    refine ⟨?_, fun _ => ?_, fun hc => absurd hc hset⟩
    · simp [Properties.set_order, hcond, hset]
    · constructor
      · simp only [Properties.set_order, if_neg hcond]
      · simp only [Properties.set_order, if_neg hcond]
        rfl

/-- Witness for C6: reordering `["A","B"]` to `["B","A"]` succeeds and the
sorting equals the given sequence. -/
theorem set_order_mismatch_iff_witness :
    (∀ x, x ∈ (["B", "A"] : List String) ↔ x ∈ sortingOf ⟨some ["A", "B"], none⟩) ∧
    Properties.set_order ⟨some ["A", "B"], none⟩ ["B", "A"] =
      (.ok (), { (⟨some ["A", "B"], none⟩ : PropertiesRaw) with sorting := some ["B", "A"] }) ∧
    sortingOf (Properties.set_order ⟨some ["A", "B"], none⟩ ["B", "A"]).2 = ["B", "A"] := by
  have hset : ∀ x, x ∈ (["B", "A"] : List String) ↔ x ∈ sortingOf ⟨some ["A", "B"], none⟩ := by
    intro x
    simp only [sortingOf, Option.getD_some, List.mem_cons, List.not_mem_nil, or_false]
    exact or_comm
  have h := (set_order_mismatch_iff ⟨some ["A", "B"], none⟩ ["B", "A"]).2.2 hset
  exact ⟨hset, h.1, h.2⟩

theorem Category.load_loaded_error_validation
    (name : Option String) (tp : TagpoolDict) (pr : PropertiesRaw) (e : PyErr)
    (h : Category.load name (.loaded tp pr) = .error e) : e = .categoryValidationError := by
  cases name with
  | none =>
    simp only [Category.load] at h
    exact (Except.error.inj h).symm
  | some s =>
    simp only [Category.load] at h
    cases hg : dictGet s tp with
    | none =>
      rw [hg] at h
      exact (Except.error.inj h).symm
    | some amount =>
      simp only [hg] at h
      by_cases h1 : s = ""
      · rw [if_pos h1] at h
        simp at h
      · rw [if_neg h1] at h
        by_cases h2 : s ∈ sortingOf pr
        · rw [if_pos h2] at h
          simp at h
        · rw [if_neg h2] at h
          exact (Except.error.inj h).symm

/-- C10: for a validated non-root category that is first or last in
`Properties.sorting`, the `neighbors` property raises
`CategoryValidationError` instead of returning an absent marker:
`get_neighbors` yields `None` for the missing side and `neighbors` then
builds a non-lazy `Category` with name `None`, whose validation fails. -/
theorem boundary_neighbors_raise_validation_error
    (tp : TagpoolDict) (pr : PropertiesRaw) (n : String) (cat : Category)
    (hcat : Category.init (some n) (.loaded tp pr) false = .ok cat)
    (hroot : n ≠ "")
    (hbd : Properties.get_index pr n = .ok 0 ∨
      Properties.get_index pr n = .ok ((sortingOf pr).length - 1)) :
    Category.neighbors cat (.loaded tp pr) = .error .categoryValidationError := by
  have hload : Category.load (some n) (.loaded tp pr) = .ok cat := hcat
  simp only [Category.load] at hload
  cases hg : dictGet n tp with
  | none =>
    rw [hg] at hload
    simp at hload
  | some amount =>
    simp only [hg] at hload
    rw [if_neg hroot] at hload
    by_cases hmem : n ∈ sortingOf pr
    · rw [if_pos hmem] at hload
      have hcats : cat = { name := some n, is_root := false, plugin_amount := amount, lazy := false } :=
        (Except.ok.inj hload).symm
      subst hcats
      rcases hbd with h0 | hl
      · simp [Category.neighbors, Properties.get_neighbors, h0, Category.init, Category.load]
      · by_cases hp : (sortingOf pr).length - 1 = 0
        · rw [hp] at hl
          simp [Category.neighbors, Properties.get_neighbors, hl, Category.init, Category.load]
        · simp only [Category.neighbors, Properties.get_neighbors, hl]
          rw [if_pos (Nat.pos_of_ne_zero hp), if_neg (lt_irrefl _)]
          cases hr : Category.init
              (some ((sortingOf pr).getD ((sortingOf pr).length - 1 - 1) ""))
              (.loaded tp pr) false with
          | error e =>
            have hr2 : Category.load
                (some ((sortingOf pr).getD ((sortingOf pr).length - 1 - 1) ""))
                (.loaded tp pr) = .error e := hr
            have he : e = .categoryValidationError :=
              Category.load_loaded_error_validation _ tp pr e hr2
            subst he
            simp [hr]
          | ok c1 =>
            simp [hr, Category.init, Category.load]
    · rw [if_neg hmem] at hload
      simp at hload

/-- Witness for C10: `"A"` is first in `sorting = ["A", "B"]`, both
categories are in the tagpool, and `neighbors` raises
`CategoryValidationError`. -/
theorem boundary_neighbors_raise_validation_error_witness :
    Category.init (some "A") (.loaded [("A", 0), ("B", 4)] ⟨some ["A", "B"], none⟩) false =
      .ok { name := some "A", is_root := false, plugin_amount := 0, lazy := false } ∧
    ("A" : String) ≠ "" ∧
    Properties.get_index ⟨some ["A", "B"], none⟩ "A" = .ok 0 ∧
    Category.neighbors { name := some "A", is_root := false, plugin_amount := 0, lazy := false }
      (.loaded [("A", 0), ("B", 4)] ⟨some ["A", "B"], none⟩) = .error .categoryValidationError :=
  ⟨rfl, by decide, rfl,
    boundary_neighbors_raise_validation_error [("A", 0), ("B", 4)] ⟨some ["A", "B"], none⟩
      "A" { name := some "A", is_root := false, plugin_amount := 0, lazy := false }
      rfl (by decide) (Or.inl rfl)⟩
